import Mathlib

/-!
Shallow embedding of the vscode-vim-wrapped extension (src/src/extension.ts):
the column codec (getColumnFromCharacter, getCharacterFromColumn,
countInitialSpaces, getLeftColumnCharacter), the WrappedLineMover state
machine (moveCursorLineWrapped, registerListeners' update handler,
getWrappedLineBounds, adjustCursorToColumn, snapCursorInsideWrappedLine,
updateSelection) over an abstract host-editor model, and the
programmatic-move reentrancy counter (runProgrammaticMove).

Lines of text are modelled as lists of UTF-16 code units (Nat); a
charCodeAt read past the end of the string yields NaN in JavaScript, which
is never a member of THAI_NON_BASE_CODES, so out-of-range reads are
modelled as non-combining positions.
-/

namespace VimWrapped

/-- The char codes of THAI_NON_BASE_CODES in extension.ts: tone marks
U+0E48..U+0E4B; ascenders U+0E34, U+0E35, U+0E37, U+0E31, U+0E4D, U+0E4C,
U+0E47, U+0E36; descenders U+0E38, U+0E39; special vowel U+0E33. -/
def THAI_NON_BASE_CODES : List Nat :=
  [0xE48, 0xE49, 0xE4A, 0xE4B,
   0xE34, 0xE35, 0xE37, 0xE31, 0xE4D, 0xE4C, 0xE47, 0xE36,
   0xE38, 0xE39,
   0xE33]

/-- THAI_NON_BASE_CODES.includes(line.charCodeAt(i)). Out-of-range reads
give NaN, which the includes test rejects, hence false. -/
def isMarkAt (line : List Nat) (i : Nat) : Bool :=
  match line.get? i with
  | some c => THAI_NON_BASE_CODES.contains c
  | none => false

/-- The TypeScript tabSize option has type number | string | undefined. -/
inductive TabSize
  | num (n : Nat)
  | str
  | undef
deriving DecidableEq, Repr

/-- The actualTabSize computation: (typeof(tabSize) === "number") ? tabSize : 0. -/
def actualTabSize : TabSize → Nat
  | .num n => n
  | .str => 0
  | .undef => 0

/-- countInitialSpaces(str, tabsize): walks the leading run of the string,
a space (code 32) adds 1, a tab (code 9) adds tabsize, any other
character stops the walk. -/
def countInitialSpaces : List Nat → Nat → Nat
  | [], _ => 0
  | c :: rest, tabsize =>
    if c = 32 then 1 + countInitialSpaces rest tabsize
    else if c = 9 then tabsize + countInitialSpaces rest tabsize
    else 0

/-- The indentation term both codec functions compute: 0 when wrapStart is 0,
otherwise countInitialSpaces(line, actualTabSize). -/
def indentationFix (line : List Nat) (wrapStart : Nat) (tabSize : TabSize) : Nat :=
  if wrapStart = 0 then 0 else countInitialSpaces line (actualTabSize tabSize)

/-- The counting loop of getColumnFromCharacter: number of non-combining
positions among i, i+1, ..., i+steps-1. -/
def countNonMarks (line : List Nat) : Nat → Nat → Nat
  | _, 0 => 0
  | i, steps + 1 => (if isMarkAt line i then 0 else 1) + countNonMarks line (i + 1) steps

/-- getColumnFromCharacter(line, wrapStart, character, tabSize): the for
loop runs i from wrapStart through character inclusive (character + 1 -
wrapStart iterations, zero when character < wrapStart), counting
non-combining positions, then adds the indentation fix. -/
def getColumnFromCharacter (line : List Nat) (wrapStart character : Nat)
    (tabSize : TabSize) : Nat :=
  countNonMarks line wrapStart (character + 1 - wrapStart)
    + indentationFix line wrapStart tabSize

/-- The while loop of getCharacterFromColumn. remaining stands for
wrapEnd - index, so remaining = 0 is the index >= wrapEnd exit (which,
like the count >= column exit, returns lastColumnCharacter). -/
def gfcLoop (line : List Nat) (column : Nat) : Nat → Nat → Nat → Nat → Nat
  | 0, _count, _index, last => last
  | remaining + 1, count, index, last =>
    if count < column then
      if isMarkAt line index then gfcLoop line column remaining count (index + 1) last
      else gfcLoop line column remaining (count + 1) (index + 1) index
    else last

/-- getCharacterFromColumn(line, wrapStart, wrapEnd, column, tabSize):
count starts at the indentation fix, index and lastColumnCharacter start
at wrapStart. -/
def getCharacterFromColumn (line : List Nat) (wrapStart wrapEnd column : Nat)
    (tabSize : TabSize) : Nat :=
  gfcLoop line column (wrapEnd - wrapStart)
    (indentationFix line wrapStart tabSize) wrapStart wrapStart

/-- The while loop of getLeftColumnCharacter: while index > 0, a combining
mark decrements index, a non-combining position breaks. -/
def glcLoop (line : List Nat) : Nat → Nat
  | 0 => 0
  | i + 1 => if isMarkAt line (i + 1) then glcLoop line i else i + 1

/-- getLeftColumnCharacter(line, character): starts at character - 1 and
scans left. (The source works on JavaScript numbers; for character = 0 it
would return -1, a position the extension never uses because every caller
first checks character is nonzero. Nat subtraction makes that case 0.) -/
def getLeftColumnCharacter (line : List Nat) (character : Nat) : Nat :=
  glcLoop line (character - 1)

/-- Leading run of spaces and tabs of a line (used only to state what
countInitialSpaces computes). -/
def leadingIndent (line : List Nat) : List Nat :=
  line.takeWhile (fun c => c == 32 || c == 9)

/-! The WrappedLineMover state machine over an abstract host editor. -/

/-- A vscode.Position: zero-based line and character offset. -/
structure Pos where
  line : Nat
  character : Nat
deriving DecidableEq, Repr

/-- A vscode.Selection; the cursor is the active end, and the selection is
empty when anchor = active. -/
structure Sel where
  anchor : Pos
  active : Pos
deriving DecidableEq, Repr

/-- vscode.TextEditorCursorStyle. -/
inductive CursorStyle
  | Line
  | Block
  | Underline
  | LineThin
  | BlockOutline
  | UnderlineThin
deriving DecidableEq, Repr

/-- The observable state of the active text editor: the document's lines,
the primary selection, the number of selections, the cursor style option
and the tabSize option. -/
structure Editor where
  doc : List (List Nat)
  sel : Sel
  selCount : Nat
  cursorStyle : CursorStyle
  tabSize : TabSize
deriving DecidableEq, Repr

/-- editor.document.lineAt(n).text. -/
def lineAt (e : Editor) (n : Nat) : List Nat := e.doc.getD n []

/-- isInInsertMode(editor): cursorStyle === TextEditorCursorStyle.Line. -/
def isInInsertMode (e : Editor) : Bool := e.cursorStyle = CursorStyle.Line

/-- isSingleSelection(editor): selections.length === 1 && selection.isEmpty. -/
def isSingleSelection (e : Editor) : Bool :=
  e.selCount = 1 ∧ e.sel.anchor = e.sel.active

/-- The to argument of the cursorMove command as issued by
doDefaultCursorMove. -/
inductive MoveTo
  | up
  | down
  | left
  | right
  | wrappedLineStart
  | wrappedLineEnd
deriving DecidableEq, Repr

/-- The two directions accepted by moveCursorLineWrapped. -/
inductive Dir
  | up
  | down
deriving DecidableEq, Repr

def Dir.toMove : Dir → MoveTo
  | .up => MoveTo.up
  | .down => MoveTo.down

/-- The host editor's cursorMove semantics (by: wrappedLine), out of scope
of the extension itself: for each target, where the cursor lands from a
given editor state. A host cursorMove only relocates the cursor. -/
structure Host where
  up : Editor → Pos
  down : Editor → Pos
  left : Editor → Pos
  right : Editor → Pos
  wrappedLineStart : Editor → Pos
  wrappedLineEnd : Editor → Pos

def Host.move (h : Host) : MoveTo → Editor → Pos
  | .up => h.up
  | .down => h.down
  | .left => h.left
  | .right => h.right
  | .wrappedLineStart => h.wrappedLineStart
  | .wrappedLineEnd => h.wrappedLineEnd

/-- The WrappedLineMover fields together with the editor it acts on and a
log of the cursorMove commands it has issued (appended left to right). -/
structure World where
  desiredColumn : Nat
  isMoving : Bool
  programmaticMoveCount : Int
  e : Editor
  log : List MoveTo
deriving Repr

/-- isInProgrammaticMove(): programmaticMoveCount > 0. -/
def isInProgrammaticMove (c : Int) : Bool := 0 < c

/-- The finally block of runProgrammaticMove:
programmaticMoveCount = Math.max(0, programmaticMoveCount - 1). -/
def guardExit (c : Int) : Int := max 0 (c - 1)

/-- Net effect on the counter of one completed runProgrammaticMove whose
wrapped action leaves the counter as it found it: increment on entry, then
the finally-block decrement. -/
def runGuard (c : Int) : Int := guardExit (c + 1)

/-- doDefaultCursorMove(to): executes cursorMove under runProgrammaticMove.
The host relocates the cursor, leaving a single empty selection; the
issued command is logged. -/
def doDefaultCursorMove (h : Host) (target : MoveTo) (w : World) : World :=
  { w with
    programmaticMoveCount := runGuard w.programmaticMoveCount,
    e := { w.e with sel := ⟨h.move target w.e, h.move target w.e⟩, selCount := 1 },
    log := w.log ++ [target] }

/-- updateSelection(editor, selection): under runProgrammaticMove, if the
current selection already equals the target it returns without touching
the editor (and without awaiting any event); otherwise it assigns
editor.selection (collapsing to a single selection) and awaits the
resulting selection-change event, a suspension with no further state
effect in this model. -/
def updateSelection (sel : Sel) (w : World) : World :=
  { w with
    programmaticMoveCount := runGuard w.programmaticMoveCount,
    e := if w.e.sel = sel then w.e else { w.e with sel := sel, selCount := 1 } }

/-- The editor state of getWrappedLineBounds after the cursorStyle is set
to LineThin, before the probes. The selection recorded as
originalSelection at this point equals the entry selection. -/
def gwlbStyled (w : World) : World :=
  { w with e := { w.e with cursorStyle := CursorStyle.LineThin } }

/-- State after the wrappedLineStart probe of getWrappedLineBounds; its
cursor character is the startChar the function returns. -/
def gwlbProbeStart (h : Host) (w : World) : World :=
  doDefaultCursorMove h MoveTo.wrappedLineStart (gwlbStyled w)

/-- State after the wrappedLineEnd probe of getWrappedLineBounds; its
cursor character is the endChar the function returns. -/
def gwlbProbeEnd (h : Host) (w : World) : World :=
  doDefaultCursorMove h MoveTo.wrappedLineEnd (gwlbProbeStart h w)

/-- getWrappedLineBounds(editor): sets cursorStyle to LineThin, records the
selection, probes wrappedLineStart then wrappedLineEnd, restores the
recorded selection, sets cursorStyle to Block, and returns the two probed
character offsets. -/
def getWrappedLineBounds (h : Host) (w : World) : (Nat × Nat) × World :=
  (((gwlbProbeStart h w).e.sel.active.character,
    (gwlbProbeEnd h w).e.sel.active.character),
   { updateSelection w.e.sel (gwlbProbeEnd h w) with
     e := { (updateSelection w.e.sel (gwlbProbeEnd h w)).e with
            cursorStyle := CursorStyle.Block } })

/-- The position adjustCursorToColumn computes from the re-resolved span
with getCharacterFromColumn. -/
def accPos (h : Host) (w : World) (column : Nat) : Pos :=
  ⟨((getWrappedLineBounds h w).2).e.sel.active.line,
    getCharacterFromColumn
      (lineAt ((getWrappedLineBounds h w).2).e
        (((getWrappedLineBounds h w).2).e.sel.active.line))
      (getWrappedLineBounds h w).1.1 (getWrappedLineBounds h w).1.2 column
      ((getWrappedLineBounds h w).2).e.tabSize⟩

/-- adjustCursorToColumn(editor, column): re-resolves the wrapped span,
converts the column back to a character offset with getCharacterFromColumn
and applies the resulting position as an empty selection. -/
def adjustCursorToColumn (h : Host) (w : World) (column : Nat) : World :=
  updateSelection ⟨accPos h w column, accPos h w column⟩ ((getWrappedLineBounds h w).2)

/-- The mover state right before the directional move inside
moveCursorLineWrapped: if no move sequence is tracked (isMoving clear),
start one and set desiredColumn with getColumnFromCharacter from the
cursor's current offset; otherwise leave the state as is. -/
def mcwTracked (h : Host) (w : World) : World :=
  if ((getWrappedLineBounds h w).2).isMoving then (getWrappedLineBounds h w).2
  else
    { (getWrappedLineBounds h w).2 with
      isMoving := true,
      desiredColumn :=
        getColumnFromCharacter
          (lineAt ((getWrappedLineBounds h w).2).e
            (((getWrappedLineBounds h w).2).e.sel.active.line))
          (getWrappedLineBounds h w).1.1
          ((getWrappedLineBounds h w).2).e.sel.active.character
          ((getWrappedLineBounds h w).2).e.tabSize }

/-- moveCursorLineWrapped(direction): guard on a single empty selection,
resolve the wrapped span, stop at a document boundary, establish the
desired column on the first move of a sequence, issue the directional
wrapped-line move, and re-snap the cursor to the desired column.
(getWrappedLineBounds is pure, so re-evaluating it stands for the local
binding of its one call in the source.) -/
def moveCursorLineWrapped (h : Host) (direction : Dir) (w : World) : World :=
  if isSingleSelection w.e then
    if (direction = Dir.down
          ∧ (getWrappedLineBounds h w).1.2
            = (lineAt ((getWrappedLineBounds h w).2).e
                (((getWrappedLineBounds h w).2).e.sel.active.line)).length
          ∧ ((getWrappedLineBounds h w).2).e.doc.length - 1
            ≤ ((getWrappedLineBounds h w).2).e.sel.active.line)
       ∨ (direction = Dir.up ∧ (getWrappedLineBounds h w).1.1 = 0
          ∧ ((getWrappedLineBounds h w).2).e.sel.active.line = 0) then
      (getWrappedLineBounds h w).2
    else
      adjustCursorToColumn h
        (doDefaultCursorMove h direction.toMove (mcwTracked h w))
        (mcwTracked h w).desiredColumn
  else w

/-- The relocation target of snapCursorInsideWrappedLine: the line of the
probed end selection, and getLeftColumnCharacter of its character. -/
def snapTargetPos (h : Host) (w : World) : Pos :=
  ⟨(doDefaultCursorMove h MoveTo.wrappedLineEnd w).e.sel.active.line,
    getLeftColumnCharacter
      (lineAt (doDefaultCursorMove h MoveTo.wrappedLineEnd w).e
        (doDefaultCursorMove h MoveTo.wrappedLineEnd w).e.sel.active.line)
      (doDefaultCursorMove h MoveTo.wrappedLineEnd w).e.sel.active.character⟩

/-- snapCursorInsideWrappedLine(editor): probe wrappedLineEnd; if the
cursor was already there, relocate it with getLeftColumnCharacter,
otherwise restore the original selection. -/
def snapCursorInsideWrappedLine (h : Host) (w : World) : World :=
  if w.e.sel = (doDefaultCursorMove h MoveTo.wrappedLineEnd w).e.sel then
    updateSelection ⟨snapTargetPos h w, snapTargetPos h w⟩
      (doDefaultCursorMove h MoveTo.wrappedLineEnd w)
  else updateSelection w.e.sel (doDefaultCursorMove h MoveTo.wrappedLineEnd w)

/-- The state after the unconditional `isMoving = false` assignment of the
update closure. -/
def clearMoving (w : World) : World := { w with isMoving := false }

/-- The update closure of registerListeners: ignore self-caused events,
clear isMoving, ignore a cursor at offset 0, and, outside insert mode and
when snapCursor is set, snap unless the cursor sits at or past the logical
line's length (the compatibility early-return for VS Code Vim). -/
def update (h : Host) (snapCursor : Bool) (w : World) : World :=
  if isInProgrammaticMove w.programmaticMoveCount then w
  else
    if (clearMoving w).e.sel.active.character = 0 then clearMoving w
    else if !(isInInsertMode (clearMoving w).e) && snapCursor then
      if (lineAt (clearMoving w).e (clearMoving w).e.sel.active.line).length
          ≤ (clearMoving w).e.sel.active.character then clearMoving w
      else snapCursorInsideWrappedLine h (clearMoving w)
    else clearMoving w

/-- TextEditorSelectionChangeKind (or undefined). -/
inductive EvKind
  | keyboard
  | mouse
  | command
  | unknown
deriving DecidableEq, Repr

/-- The onDidChangeTextEditorSelection subscription: snapCursor is
kind === Mouse && isSingleSelection(e.textEditor). -/
def onDidChangeTextEditorSelection (h : Host) (kind : EvKind) (w : World) : World :=
  update h (kind == EvKind.mouse && isSingleSelection w.e) w

/-- The onDidChangeTextEditorVisibleRanges subscription: snapCursor false. -/
def onDidChangeTextEditorVisibleRanges (h : Host) (w : World) : World :=
  update h false w

/-- The onDidChangeActiveTextEditor subscription: snapCursor false. -/
def onDidChangeActiveTextEditor (h : Host) (w : World) : World :=
  update h false w

/-! The reentrancy counter in isolation, for arbitrary nestings of
runProgrammaticMove around actions that may throw. -/

/-- Result of running an action: the counter it leaves behind, whether it
threw, and the counter value observed at each primitive step it ran. -/
structure ExecRes where
  counter : Int
  threw : Bool
  trace : List Int
deriving Repr

/-- runProgrammaticMove(action): increment the counter, run the action,
and in the finally block set the counter to Math.max(0, counter - 1),
rethrowing any exception of the action. -/
def runProgrammaticMove (action : Int → ExecRes) (c : Int) : ExecRes :=
  let r := action (c + 1)
  { r with counter := guardExit r.counter }

/-- Shapes of the code run around the counter: a primitive step (which
does not touch the counter and may throw), sequencing (the second part is
skipped if the first throws), and a runProgrammaticMove wrapper. -/
inductive Act
  | leaf (throws : Bool)
  | seq (a b : Act)
  | guarded (a : Act)

/-- Execution of an Act against a counter value. -/
def exec : Act → Int → ExecRes
  | .leaf t, c => ⟨c, t, [c]⟩
  | .seq a b, c =>
    let r := exec a c
    if r.threw then r
    else
      let r2 := exec b r.counter
      { r2 with trace := r.trace ++ r2.trace }
  | .guarded a, c => runProgrammaticMove (exec a) c

/-! Concrete host instances and states used to evaluate the theorems. -/

/-- A host whose lines are never soft-wrapped: the wrapped span of any
position is the whole logical line, and up and down keep the character. -/
def hostNoWrap : Host where
  up := fun e => ⟨e.sel.active.line - 1, e.sel.active.character⟩
  down := fun e => ⟨e.sel.active.line + 1, e.sel.active.character⟩
  left := fun e => ⟨e.sel.active.line, e.sel.active.character - 1⟩
  right := fun e => ⟨e.sel.active.line, e.sel.active.character + 1⟩
  wrappedLineStart := fun e => ⟨e.sel.active.line, 0⟩
  wrappedLineEnd := fun e => ⟨e.sel.active.line, (lineAt e e.sel.active.line).length⟩

/-- A host that soft-wraps every line after its first three characters:
positions at character offsets 0..3 belong to the first visual segment,
whose wrapped-line end sits at offset 3. -/
def hostWrap3 : Host where
  up := fun e => ⟨e.sel.active.line - 1, e.sel.active.character⟩
  down := fun e => ⟨e.sel.active.line + 1, e.sel.active.character⟩
  left := fun e => ⟨e.sel.active.line, e.sel.active.character - 1⟩
  right := fun e => ⟨e.sel.active.line, e.sel.active.character + 1⟩
  wrappedLineStart := fun e => ⟨e.sel.active.line, 0⟩
  wrappedLineEnd := fun e => ⟨e.sel.active.line, 3⟩

/-- A two-line document, cursor at line 0 character 1, normal (Block)
cursor, counter 0, no active move sequence. -/
def worldTwoLines : World where
  desiredColumn := 0
  isMoving := false
  programmaticMoveCount := 0
  e :=
    { doc := [[97, 98, 99], [100, 101]]
      sel := ⟨⟨0, 1⟩, ⟨0, 1⟩⟩
      selCount := 1
      cursorStyle := CursorStyle.Block
      tabSize := TabSize.num 4 }
  log := []

/-- A one-line document with the cursor at the end of the only line,
ready to exhibit the document-boundary no-op. -/
def worldLastLine : World where
  desiredColumn := 7
  isMoving := false
  programmaticMoveCount := 0
  e :=
    { doc := [[97, 98, 99]]
      sel := ⟨⟨0, 3⟩, ⟨0, 3⟩⟩
      selCount := 1
      cursorStyle := CursorStyle.Block
      tabSize := TabSize.num 4 }
  log := []

/-- An editor in insert mode (cursorStyle Line), to exhibit the cursor
style left behind by getWrappedLineBounds. -/
def worldInsertMode : World where
  desiredColumn := 0
  isMoving := false
  programmaticMoveCount := 0
  e :=
    { doc := [[97, 98]]
      sel := ⟨⟨0, 1⟩, ⟨0, 1⟩⟩
      selCount := 1
      cursorStyle := CursorStyle.Line
      tabSize := TabSize.num 4 }
  log := []

/-- A six-character line under hostWrap3 with the cursor hanging exactly
at the wrapped-line end (offset 3) of the first visual segment, normal
mode, counter 0. -/
def worldHanging : World where
  desiredColumn := 0
  isMoving := true
  programmaticMoveCount := 0
  e :=
    { doc := [[97, 98, 99, 100, 101, 102]]
      sel := ⟨⟨0, 3⟩, ⟨0, 3⟩⟩
      selCount := 1
      cursorStyle := CursorStyle.Block
      tabSize := TabSize.num 4 }
  log := []

/-! Lemmas about the column codec. -/

theorem isMarkAt_eq_false_of_not_mem (line : List Nat)
    (hml : ∀ c ∈ line, c ∉ THAI_NON_BASE_CODES) (j : Nat) :
    isMarkAt line j = false := by
  unfold isMarkAt
  cases hg : line.get? j with
  | none => rfl
  | some c =>
    have hc : c ∈ line := List.get?_mem hg
    simpa using hml c hc

theorem countNonMarks_markfree (line : List Nat)
    (hm : ∀ j, isMarkAt line j = false) :
    ∀ steps i, countNonMarks line i steps = steps := by
  intro steps
  induction steps with
  | zero => intro i; rfl
  | succ n ih =>
    intro i
    simp [countNonMarks, hm i, ih (i + 1)]
    omega

theorem countNonMarks_pos (line : List Nat) :
    ∀ steps i, (∃ j, i ≤ j ∧ j < i + steps ∧ isMarkAt line j = false) →
      1 ≤ countNonMarks line i steps := by
  intro steps
  induction steps with
  | zero =>
    intro i ⟨j, hij, hj, _⟩
    omega
  | succ n ih =>
    intro i ⟨j, hij, hj, hmark⟩
    by_cases hi : isMarkAt line i = false
    · simp [countNonMarks, hi]
    · have hji : j ≠ i := by intro he; rw [he] at hmark; exact hi hmark
      have : 1 ≤ countNonMarks line (i + 1) n := ih (i + 1) ⟨j, by omega, by omega, hmark⟩
      simp [countNonMarks]
      omega

theorem gfcLoop_stop (line : List Nat) (column r c i last : Nat)
    (h : ¬ c < column) : gfcLoop line column r c i last = last := by
  cases r with
  | zero => rfl
  | succ n => simp [gfcLoop, h]

theorem gfcLoop_step_mark (line : List Nat) (column r c i last : Nat)
    (hlt : c < column) (hmk : isMarkAt line i = true) :
    gfcLoop line column (r + 1) c i last = gfcLoop line column r c (i + 1) last := by
  simp [gfcLoop, hlt, hmk]

theorem gfcLoop_step_nonmark (line : List Nat) (column r c i last : Nat)
    (hlt : c < column) (hmk : isMarkAt line i = false) :
    gfcLoop line column (r + 1) c i last = gfcLoop line column r (c + 1) (i + 1) i := by
  simp [gfcLoop, hlt, hmk]

theorem gfcLoop_markfree_run (line : List Nat) (column : Nat)
    (hm : ∀ j, isMarkAt line j = false) :
    ∀ d r c i last, c + d + 1 = column → d + 1 ≤ r →
      gfcLoop line column r c i last = i + d := by
  intro d
  induction d with
  | zero =>
    intro r c i last hcol hr
    obtain ⟨r0, rfl⟩ : ∃ r0, r = r0 + 1 := ⟨r - 1, by omega⟩
    rw [gfcLoop_step_nonmark line column r0 c i last (by omega) (hm i)]
    rw [gfcLoop_stop line column r0 (c + 1) (i + 1) i (by omega)]
    omega
  | succ n ih =>
    intro r c i last hcol hr
    obtain ⟨r0, rfl⟩ : ∃ r0, r = r0 + 1 := ⟨r - 1, by omega⟩
    rw [gfcLoop_step_nonmark line column r0 c i last (by omega) (hm i)]
    rw [ih r0 (c + 1) (i + 1) i (by omega) (by omega)]
    omega

theorem gfcLoop_bounds (line : List Nat) (column : Nat) :
    ∀ r c i last, gfcLoop line column r c i last = last ∨
      (i ≤ gfcLoop line column r c i last ∧ gfcLoop line column r c i last + 1 ≤ i + r) := by
  intro r
  induction r with
  | zero => intro c i last; exact Or.inl rfl
  | succ n ih =>
    intro c i last
    by_cases hlt : c < column
    · by_cases hmk : isMarkAt line i = true
      · rw [gfcLoop_step_mark line column n c i last hlt hmk]
        rcases ih c (i + 1) last with h | ⟨h1, h2⟩
        · exact Or.inl h
        · exact Or.inr ⟨by omega, by omega⟩
      · rw [gfcLoop_step_nonmark line column n c i last hlt (by simpa using hmk)]
        rcases ih (c + 1) (i + 1) i with h | ⟨h1, h2⟩
        · exact Or.inr ⟨by omega, by omega⟩
        · exact Or.inr ⟨by omega, by omega⟩
    · rw [gfcLoop_stop line column (n + 1) c i last hlt]
      exact Or.inl rfl

theorem gfcLoop_nonmark (line : List Nat) (column : Nat) :
    ∀ r c i last,
      (isMarkAt line last = false ∨
        (c < column ∧ ∃ j, i ≤ j ∧ j < i + r ∧ isMarkAt line j = false)) →
      isMarkAt line (gfcLoop line column r c i last) = false := by
  intro r
  induction r with
  | zero =>
    intro c i last h
    rcases h with h | ⟨_, j, hij, hj, _⟩
    · exact h
    · omega
  | succ n ih =>
    intro c i last h
    by_cases hlt : c < column
    · by_cases hmk : isMarkAt line i = true
      · rw [gfcLoop_step_mark line column n c i last hlt hmk]
        apply ih
        rcases h with h | ⟨_, j, hij, hj, hjm⟩
        · exact Or.inl h
        · have hji : j ≠ i := by intro he; rw [he] at hjm; rw [hmk] at hjm; exact absurd hjm (by simp)
          exact Or.inr ⟨hlt, j, by omega, by omega, hjm⟩
      · have hmk0 : isMarkAt line i = false := by simpa using hmk
        rw [gfcLoop_step_nonmark line column n c i last hlt hmk0]
        exact ih (c + 1) (i + 1) i (Or.inl hmk0)
    · rw [gfcLoop_stop line column (n + 1) c i last hlt]
      rcases h with h | ⟨hc, _⟩
      · exact h
      · exact absurd hc hlt

theorem glcLoop_step_mark (line : List Nat) (i : Nat)
    (hmk : isMarkAt line (i + 1) = true) : glcLoop line (i + 1) = glcLoop line i := by
  simp [glcLoop, hmk]

theorem glcLoop_step_nonmark (line : List Nat) (i : Nat)
    (hmk : isMarkAt line (i + 1) = false) : glcLoop line (i + 1) = i + 1 := by
  simp [glcLoop, hmk]

theorem glcLoop_le (line : List Nat) : ∀ i, glcLoop line i ≤ i := by
  intro i
  induction i with
  | zero => simp [glcLoop]
  | succ n ih =>
    by_cases hmk : isMarkAt line (n + 1) = true
    · rw [glcLoop_step_mark line n hmk]
      omega
    · rw [glcLoop_step_nonmark line n (by simpa using hmk)]

theorem glcLoop_nonmark (line : List Nat) :
    ∀ i, (∃ j, j ≤ i ∧ isMarkAt line j = false) →
      isMarkAt line (glcLoop line i) = false := by
  intro i
  induction i with
  | zero =>
    intro ⟨j, hj, hjm⟩
    have hj0 : j = 0 := by omega
    subst hj0
    simpa [glcLoop] using hjm
  | succ n ih =>
    intro ⟨j, hj, hjm⟩
    by_cases hmk : isMarkAt line (n + 1) = true
    · rw [glcLoop_step_mark line n hmk]
      apply ih
      have hji : j ≠ n + 1 := by intro he; rw [he] at hjm; rw [hmk] at hjm; exact absurd hjm (by simp)
      exact ⟨j, by omega, hjm⟩
    · rw [glcLoop_step_nonmark line n (by simpa using hmk)]
      simpa using hmk

theorem countInitialSpaces_eq_counts (line : List Nat) (t : Nat) :
    countInitialSpaces line t =
      (leadingIndent line).count 32 * 1 + (leadingIndent line).count 9 * t := by
  induction line with
  | nil => simp [countInitialSpaces, leadingIndent]
  | cons c rest ih =>
    by_cases h32 : c = 32
    · subst h32
      have h1 : countInitialSpaces (32 :: rest) t = 1 + countInitialSpaces rest t := by
        simp [countInitialSpaces]
      have h2 : leadingIndent (32 :: rest) = 32 :: leadingIndent rest := by
        simp [leadingIndent, List.takeWhile_cons]
      rw [h1, h2, ih]
      simp [List.count_cons]
      ring
    · by_cases h9 : c = 9
      · subst h9
        have h1 : countInitialSpaces (9 :: rest) t = t + countInitialSpaces rest t := by
          simp [countInitialSpaces]
        have h2 : leadingIndent (9 :: rest) = 9 :: leadingIndent rest := by
          simp [leadingIndent, List.takeWhile_cons]
        rw [h1, h2, ih]
        simp [List.count_cons]
        ring
      · have h1 : countInitialSpaces (c :: rest) t = 0 := by
          simp [countInitialSpaces, h32, h9]
        have h2 : leadingIndent (c :: rest) = [] := by
          simp [leadingIndent, List.takeWhile_cons, h32, h9]
        rw [h1, h2]
        simp

/-! Lemmas about the state-machine operations. -/

theorem runGuard_nonneg (c : Int) : 0 ≤ runGuard c := by
  unfold runGuard guardExit
  omega

theorem runGuard_id (c : Int) (hc : 0 ≤ c) : runGuard c = c := by
  unfold runGuard guardExit
  omega

theorem runGuard3_id (c : Int) (hc : 0 ≤ c) : runGuard (runGuard (runGuard c)) = c := by
  unfold runGuard guardExit
  omega

@[simp] theorem ddcm_desired (h : Host) (t : MoveTo) (w : World) :
    (doDefaultCursorMove h t w).desiredColumn = w.desiredColumn := rfl

@[simp] theorem ddcm_isMoving (h : Host) (t : MoveTo) (w : World) :
    (doDefaultCursorMove h t w).isMoving = w.isMoving := rfl

@[simp] theorem ddcm_count (h : Host) (t : MoveTo) (w : World) :
    (doDefaultCursorMove h t w).programmaticMoveCount
      = runGuard w.programmaticMoveCount := rfl

@[simp] theorem ddcm_doc (h : Host) (t : MoveTo) (w : World) :
    (doDefaultCursorMove h t w).e.doc = w.e.doc := rfl

@[simp] theorem ddcm_tabSize (h : Host) (t : MoveTo) (w : World) :
    (doDefaultCursorMove h t w).e.tabSize = w.e.tabSize := rfl

@[simp] theorem ddcm_style (h : Host) (t : MoveTo) (w : World) :
    (doDefaultCursorMove h t w).e.cursorStyle = w.e.cursorStyle := rfl

@[simp] theorem ddcm_selCount (h : Host) (t : MoveTo) (w : World) :
    (doDefaultCursorMove h t w).e.selCount = 1 := rfl

@[simp] theorem ddcm_sel (h : Host) (t : MoveTo) (w : World) :
    (doDefaultCursorMove h t w).e.sel = ⟨h.move t w.e, h.move t w.e⟩ := rfl

@[simp] theorem ddcm_log (h : Host) (t : MoveTo) (w : World) :
    (doDefaultCursorMove h t w).log = w.log ++ [t] := rfl

@[simp] theorem usel_desired (s : Sel) (w : World) :
    (updateSelection s w).desiredColumn = w.desiredColumn := rfl

@[simp] theorem usel_isMoving (s : Sel) (w : World) :
    (updateSelection s w).isMoving = w.isMoving := rfl

@[simp] theorem usel_count (s : Sel) (w : World) :
    (updateSelection s w).programmaticMoveCount
      = runGuard w.programmaticMoveCount := rfl

@[simp] theorem usel_log (s : Sel) (w : World) :
    (updateSelection s w).log = w.log := rfl

@[simp] theorem usel_sel (s : Sel) (w : World) : (updateSelection s w).e.sel = s := by
  by_cases hc : w.e.sel = s <;> simp [updateSelection, hc]

@[simp] theorem usel_doc (s : Sel) (w : World) : (updateSelection s w).e.doc = w.e.doc := by
  by_cases hc : w.e.sel = s <;> simp [updateSelection, hc]

@[simp] theorem usel_tabSize (s : Sel) (w : World) :
    (updateSelection s w).e.tabSize = w.e.tabSize := by
  by_cases hc : w.e.sel = s <;> simp [updateSelection, hc]

@[simp] theorem usel_style (s : Sel) (w : World) :
    (updateSelection s w).e.cursorStyle = w.e.cursorStyle := by
  by_cases hc : w.e.sel = s <;> simp [updateSelection, hc]

@[simp] theorem gwlb_sel (h : Host) (w : World) :
    ((getWrappedLineBounds h w).2).e.sel = w.e.sel := by
  simp [getWrappedLineBounds, gwlbProbeEnd, gwlbProbeStart, gwlbStyled]

@[simp] theorem gwlb_doc (h : Host) (w : World) :
    ((getWrappedLineBounds h w).2).e.doc = w.e.doc := by
  simp [getWrappedLineBounds, gwlbProbeEnd, gwlbProbeStart, gwlbStyled]

@[simp] theorem gwlb_tabSize (h : Host) (w : World) :
    ((getWrappedLineBounds h w).2).e.tabSize = w.e.tabSize := by
  simp [getWrappedLineBounds, gwlbProbeEnd, gwlbProbeStart, gwlbStyled]

@[simp] theorem gwlb_style (h : Host) (w : World) :
    ((getWrappedLineBounds h w).2).e.cursorStyle = CursorStyle.Block := by
  simp [getWrappedLineBounds, gwlbProbeEnd, gwlbProbeStart, gwlbStyled]

@[simp] theorem gwlb_desired (h : Host) (w : World) :
    ((getWrappedLineBounds h w).2).desiredColumn = w.desiredColumn := by
  simp [getWrappedLineBounds, gwlbProbeEnd, gwlbProbeStart, gwlbStyled]

@[simp] theorem gwlb_isMoving (h : Host) (w : World) :
    ((getWrappedLineBounds h w).2).isMoving = w.isMoving := by
  simp [getWrappedLineBounds, gwlbProbeEnd, gwlbProbeStart, gwlbStyled]

@[simp] theorem gwlb_log (h : Host) (w : World) :
    ((getWrappedLineBounds h w).2).log
      = w.log ++ [MoveTo.wrappedLineStart, MoveTo.wrappedLineEnd] := by
  simp [getWrappedLineBounds, gwlbProbeEnd, gwlbProbeStart, gwlbStyled]

@[simp] theorem gwlb_lineAt (h : Host) (w : World) (n : Nat) :
    lineAt ((getWrappedLineBounds h w).2).e n = lineAt w.e n := by
  simp [lineAt]

theorem gwlb_count (h : Host) (w : World) (hc : 0 ≤ w.programmaticMoveCount) :
    ((getWrappedLineBounds h w).2).programmaticMoveCount = w.programmaticMoveCount := by
  simp [getWrappedLineBounds, gwlbProbeEnd, gwlbProbeStart, gwlbStyled]
  exact runGuard3_id _ hc

theorem usel_selCount (s : Sel) (w : World) :
    (updateSelection s w).e.selCount = if w.e.sel = s then w.e.selCount else 1 := by
  by_cases hc : w.e.sel = s <;> simp [updateSelection, hc]

theorem gwlb_selCount (h : Host) (w : World) :
    ((getWrappedLineBounds h w).2).e.selCount = 1 := by
  simp [getWrappedLineBounds, gwlbProbeEnd, gwlbProbeStart, gwlbStyled, usel_selCount]

@[simp] theorem acc_desired (h : Host) (w : World) (column : Nat) :
    (adjustCursorToColumn h w column).desiredColumn = w.desiredColumn := by
  simp [adjustCursorToColumn]

@[simp] theorem acc_isMoving (h : Host) (w : World) (column : Nat) :
    (adjustCursorToColumn h w column).isMoving = w.isMoving := by
  simp [adjustCursorToColumn]

@[simp] theorem acc_log (h : Host) (w : World) (column : Nat) :
    (adjustCursorToColumn h w column).log
      = w.log ++ [MoveTo.wrappedLineStart, MoveTo.wrappedLineEnd] := by
  simp [adjustCursorToColumn]

theorem isMarkAt_past_end (line : List Nat) (j : Nat) (hj : line.length ≤ j) :
    isMarkAt line j = false := by
  unfold isMarkAt
  rw [List.get?_eq_none.mpr hj]

/-! Claim theorems. -/

/-- C2: for every line without combining-mark codes, every wrapped span,
every tabSize and every offset x with wrapStart ≤ x < wrapEnd, converting
x to a column with getColumnFromCharacter and back with
getCharacterFromColumn returns x. -/
theorem claim_C2 :
    ∀ (line : List Nat) (ws we x : Nat) (ts : TabSize),
      (∀ c ∈ line, c ∉ THAI_NON_BASE_CODES) → ws ≤ x → x < we →
      getCharacterFromColumn line ws we (getColumnFromCharacter line ws x ts) ts = x := by
  intro line ws we x ts hml hwx hxe
  have hm : ∀ j, isMarkAt line j = false := isMarkAt_eq_false_of_not_mem line hml
  unfold getCharacterFromColumn getColumnFromCharacter
  rw [countNonMarks_markfree line hm]
  rw [gfcLoop_markfree_run line (x + 1 - ws + indentationFix line ws ts) hm
    (x - ws) (we - ws) (indentationFix line ws ts) ws ws (by omega) (by omega)]
  omega

/-- Witness for C2 on the combining-mark-free line "abcd" with span
[1, 4), x = 2, tabSize 4. -/
theorem claim_C2_witness :
    getCharacterFromColumn [97, 98, 99, 100] 1 4
      (getColumnFromCharacter [97, 98, 99, 100] 1 2 (TabSize.num 4)) (TabSize.num 4) = 2 :=
  claim_C2 [97, 98, 99, 100] 1 4 2 (TabSize.num 4) (by decide) (by decide) (by decide)

/-- C3 as stated is false: with line "[U+0E48]b" (a combining mark then a
base character), span [0, 2) and column 0, the loop of
getCharacterFromColumn never runs and returns wrapStart = 0, which is a
combining-mark offset, although the non-mark offset 1 lies in the span. -/
theorem claim_C3_counterexample :
    (0:Nat) ≤ 1 ∧ 1 < 2 ∧ isMarkAt [3656, 98] 1 = false ∧
    getCharacterFromColumn [3656, 98] 0 2 0 (TabSize.num 4) = 0 ∧
    isMarkAt [3656, 98] 0 = true := by decide

/-- C3 amended: the landing offset of getCharacterFromColumn is not a
combining mark provided the requested column strictly exceeds the starting
indentation count (which is 0 when wrapStart = 0) and some offset of the
span is not a combining mark; and getLeftColumnCharacter(line, c) for
c ≥ 1 returns an offset strictly left of c that is not a combining mark
whenever such an offset exists below c. -/
theorem claim_C3_amended :
    (∀ (line : List Nat) (ws we col : Nat) (ts : TabSize),
        indentationFix line ws ts < col →
        (∃ j, ws ≤ j ∧ j < we ∧ isMarkAt line j = false) →
        isMarkAt line (getCharacterFromColumn line ws we col ts) = false)
    ∧ (∀ (line : List Nat) (c : Nat), 1 ≤ c →
        (∃ j, j < c ∧ isMarkAt line j = false) →
        getLeftColumnCharacter line c < c ∧
        isMarkAt line (getLeftColumnCharacter line c) = false) := by
  constructor
  · intro line ws we col ts hfix ⟨j, hwj, hjwe, hjm⟩
    unfold getCharacterFromColumn
    apply gfcLoop_nonmark
    exact Or.inr ⟨hfix, j, hwj, by omega, hjm⟩
  · intro line c hc ⟨j, hj, hjm⟩
    unfold getLeftColumnCharacter
    refine ⟨?_, glcLoop_nonmark line (c - 1) ⟨j, by omega, hjm⟩⟩
    have := glcLoop_le line (c - 1)
    omega

/-- Witness for the amended C3: on "[U+0E48]b" with column 1 the landing
offset is not a mark, and on "a[U+0E48]c" the left move from offset 2
skips the mark and lands on the non-mark offset 0. -/
theorem claim_C3_amended_witness :
    isMarkAt [3656, 98]
      (getCharacterFromColumn [3656, 98] 0 2 1 (TabSize.num 4)) = false ∧
    (getLeftColumnCharacter [97, 3656, 99] 2 < 2 ∧
      isMarkAt [97, 3656, 99] (getLeftColumnCharacter [97, 3656, 99] 2) = false) :=
  ⟨claim_C3_amended.1 [3656, 98] 0 2 1 (TabSize.num 4) (by decide)
      ⟨1, by decide, by decide, by decide⟩,
    claim_C3_amended.2 [97, 3656, 99] 2 (by decide) ⟨0, by decide, by decide⟩⟩

/-- C5: for wrapStart ≤ wrapEnd, the offset returned by
getCharacterFromColumn lies between wrapStart and max (wrapEnd - 1)
wrapStart, for every line, column and tabSize. -/
theorem claim_C5 :
    ∀ (line : List Nat) (ws we col : Nat) (ts : TabSize), ws ≤ we →
      ws ≤ getCharacterFromColumn line ws we col ts ∧
      getCharacterFromColumn line ws we col ts ≤ max (we - 1) ws := by
  intro line ws we col ts hwe
  unfold getCharacterFromColumn
  rcases gfcLoop_bounds line col (we - ws) (indentationFix line ws ts) ws ws
    with h | ⟨h1, h2⟩
  · rw [h]
    exact ⟨Nat.le_refl ws, Nat.le_max_right _ _⟩
  · exact ⟨h1, by omega⟩

/-- Witness for C5 on line "[U+0E48]b", span [0, 2), unreachable column 5. -/
theorem claim_C5_witness :
    0 ≤ getCharacterFromColumn [3656, 98] 0 2 5 (TabSize.num 4) ∧
    getCharacterFromColumn [3656, 98] 0 2 5 (TabSize.num 4) ≤ max (2 - 1) 0 :=
  claim_C5 [3656, 98] 0 2 5 (TabSize.num 4) (by decide)

/-- C6: with wrapStart ≠ 0 both codec functions carry the indentation
width countInitialSpaces(line, actualTabSize) — getColumnFromCharacter
adds it to its character count, getCharacterFromColumn starts its running
count at it — and with wrapStart = 0 no indentation term appears; the
indentation width counts each leading space as 1 and each leading tab as
tabSize, and a non-numeric tabSize is treated as 0. -/
theorem claim_C6 :
    (∀ (line : List Nat) (ws ch : Nat) (ts : TabSize), ws ≠ 0 →
        getColumnFromCharacter line ws ch ts
          = countNonMarks line ws (ch + 1 - ws) + countInitialSpaces line (actualTabSize ts))
    ∧ (∀ (line : List Nat) (ws we col : Nat) (ts : TabSize), ws ≠ 0 →
        getCharacterFromColumn line ws we col ts
          = gfcLoop line col (we - ws) (countInitialSpaces line (actualTabSize ts)) ws ws)
    ∧ (∀ (line : List Nat) (ch : Nat) (ts : TabSize),
        getColumnFromCharacter line 0 ch ts = countNonMarks line 0 (ch + 1))
    ∧ (∀ (line : List Nat) (we col : Nat) (ts : TabSize),
        getCharacterFromColumn line 0 we col ts = gfcLoop line col we 0 0 0)
    ∧ (∀ (line : List Nat) (t : Nat),
        countInitialSpaces line t
          = (leadingIndent line).count 32 * 1 + (leadingIndent line).count 9 * t)
    ∧ (∀ n, actualTabSize (TabSize.num n) = n)
    ∧ actualTabSize TabSize.str = 0 ∧ actualTabSize TabSize.undef = 0 := by
  refine ⟨?_, ?_, ?_, ?_, countInitialSpaces_eq_counts, fun n => rfl, rfl, rfl⟩
  · intro line ws ch ts hws
    unfold getColumnFromCharacter indentationFix
    rw [if_neg hws]
  · intro line ws we col ts hws
    unfold getCharacterFromColumn indentationFix
    rw [if_neg hws]
  · intro line ch ts
    unfold getColumnFromCharacter indentationFix
    simp
  · intro line we col ts
    unfold getCharacterFromColumn indentationFix
    simp

/-- Witness for C6: a continuation span (wrapStart = 2) of the line
"  ab" with a 2-space indent adds the indentation width 2. -/
theorem claim_C6_witness :
    getColumnFromCharacter [32, 32, 97, 98] 2 3 (TabSize.num 4)
      = countNonMarks [32, 32, 97, 98] 2 2
        + countInitialSpaces [32, 32, 97, 98] (actualTabSize (TabSize.num 4)) :=
  claim_C6.1 [32, 32, 97, 98] 2 3 (TabSize.num 4) (by decide)

/-- C10 as stated is false: on the line consisting of the single
combining mark U+0E48, with wrapStart = 0 and character = 0 (both within
the claimed range 0 ≤ character ≤ line.length), getColumnFromCharacter
counts no position and returns 0. -/
theorem claim_C10_counterexample :
    (0:Nat) ≤ 0 ∧ (0:Nat) ≤ [3656].length ∧
    getColumnFromCharacter [3656] 0 0 (TabSize.num 4) = 0 := by decide

/-- C10 amended: getColumnFromCharacter (a total function in this
embedding, so termination is inherent) counts the position character
itself inclusively and returns at least 1 whenever some position in
[wrapStart, character] is not a combining mark; in particular when
character = line.length, because the out-of-range read at line.length is
treated as a non-combining character. The desired visual column is
therefore nonzero whenever the counted range contains a non-mark
position, but not in general. -/
theorem claim_C10_amended :
    (∀ (line : List Nat) (ws ch : Nat) (ts : TabSize), ws ≤ ch →
        (∃ j, ws ≤ j ∧ j ≤ ch ∧ isMarkAt line j = false) →
        1 ≤ getColumnFromCharacter line ws ch ts)
    ∧ (∀ (line : List Nat) (ws : Nat) (ts : TabSize), ws ≤ line.length →
        1 ≤ getColumnFromCharacter line ws line.length ts) := by
  have part1 : ∀ (line : List Nat) (ws ch : Nat) (ts : TabSize), ws ≤ ch →
      (∃ j, ws ≤ j ∧ j ≤ ch ∧ isMarkAt line j = false) →
      1 ≤ getColumnFromCharacter line ws ch ts := by
    intro line ws ch ts hwc ⟨j, hwj, hjc, hjm⟩
    have h1 : 1 ≤ countNonMarks line ws (ch + 1 - ws) :=
      countNonMarks_pos line (ch + 1 - ws) ws ⟨j, hwj, by omega, hjm⟩
    unfold getColumnFromCharacter
    omega
  refine ⟨part1, ?_⟩
  intro line ws ts hws
  exact part1 line ws line.length ts hws
    ⟨line.length, hws, Nat.le_refl _, isMarkAt_past_end line line.length (Nat.le_refl _)⟩

/-- Witness for the amended C10 at the end of line "a". -/
theorem claim_C10_amended_witness :
    1 ≤ getColumnFromCharacter [97] 0 ([97].length) (TabSize.num 4) :=
  claim_C10_amended.2 [97] 0 (TabSize.num 4) (by decide)

/-- C7 as stated is false: getWrappedLineBounds does restore the
selection, but it unconditionally sets the cursorStyle option to Block on
exit (after LineThin during the probe), so from an entry state in insert
mode (cursorStyle Line) the editor options observably differ after the
call. -/
theorem claim_C7_counterexample :
    worldInsertMode.e.cursorStyle = CursorStyle.Line ∧
    ((getWrappedLineBounds hostNoWrap worldInsertMode).2).e.sel = worldInsertMode.e.sel ∧
    ((getWrappedLineBounds hostNoWrap worldInsertMode).2).e.cursorStyle = CursorStyle.Block ∧
    ((getWrappedLineBounds hostNoWrap worldInsertMode).2).e.cursorStyle
      ≠ worldInsertMode.e.cursorStyle := by decide

/-- C7 amended: getWrappedLineBounds restores the entry selection exactly
and leaves the document, the tabSize option, the mover fields and (when it
was nonnegative) the programmatic-move counter unchanged, but it always
exits with cursorStyle Block and a single selection, regardless of the
entry values of those two. -/
theorem claim_C7_amended :
    ∀ (h : Host) (w : World),
      ((getWrappedLineBounds h w).2).e.sel = w.e.sel
      ∧ ((getWrappedLineBounds h w).2).e.doc = w.e.doc
      ∧ ((getWrappedLineBounds h w).2).e.tabSize = w.e.tabSize
      ∧ ((getWrappedLineBounds h w).2).e.selCount = 1
      ∧ ((getWrappedLineBounds h w).2).e.cursorStyle = CursorStyle.Block
      ∧ ((getWrappedLineBounds h w).2).desiredColumn = w.desiredColumn
      ∧ ((getWrappedLineBounds h w).2).isMoving = w.isMoving
      ∧ (0 ≤ w.programmaticMoveCount →
          ((getWrappedLineBounds h w).2).programmaticMoveCount
            = w.programmaticMoveCount) := by
  intro h w
  exact ⟨gwlb_sel h w, gwlb_doc h w, gwlb_tabSize h w, gwlb_selCount h w, gwlb_style h w,
    gwlb_desired h w, gwlb_isMoving h w, fun hc => gwlb_count h w hc⟩

/-- Witness for the amended C7 at a concrete host and state. -/
theorem claim_C7_amended_witness :
    ((getWrappedLineBounds hostNoWrap worldTwoLines).2).e.sel = worldTwoLines.e.sel ∧
    ((getWrappedLineBounds hostNoWrap worldTwoLines).2).programmaticMoveCount
      = worldTwoLines.programmaticMoveCount :=
  ⟨(claim_C7_amended hostNoWrap worldTwoLines).1,
    (claim_C7_amended hostNoWrap worldTwoLines).2.2.2.2.2.2.2 (by decide)⟩

theorem exec_counter (a : Act) : ∀ (c : Int), 0 ≤ c → (exec a c).counter = c := by
  induction a with
  | leaf t => intro c hc; rfl
  | seq a b iha ihb =>
    intro c hc
    by_cases ht : (exec a c).threw
    · simp [exec, ht, iha c hc]
    · simp [exec, ht, iha c hc, ihb c hc]
  | guarded a ih =>
    intro c hc
    have h1 : (exec a (c + 1)).counter = c + 1 := ih (c + 1) (by omega)
    simp only [exec, runProgrammaticMove, h1, guardExit]
    omega

theorem exec_trace_ge (a : Act) : ∀ (c : Int), 0 ≤ c →
    ∀ v ∈ (exec a c).trace, c ≤ v := by
  induction a with
  | leaf t =>
    intro c hc v hv
    simp [exec] at hv
    omega
  | seq a b iha ihb =>
    intro c hc v hv
    by_cases ht : (exec a c).threw
    · simp [exec, ht] at hv
      exact iha c hc v hv
    · simp [exec, ht] at hv
      rcases hv with hv | hv
      · exact iha c hc v hv
      · rw [exec_counter a c hc] at hv
        exact ihb c hc v hv
  | guarded a ih =>
    intro c hc v hv
    simp [exec, runProgrammaticMove] at hv
    have := ih (c + 1) (by omega) v hv
    omega

/-- C8: for every nesting of runProgrammaticMove around primitive steps
that may throw, execution from a nonnegative counter restores the counter
to its entry value (so it is 0 whenever no self-issued mutation is in
progress) and keeps it nonnegative; every primitive step running inside a
runProgrammaticMove observes a strictly positive counter, and
isInProgrammaticMove is exactly the counter-positive test. -/
theorem claim_C8 :
    (∀ (a : Act) (c : Int), 0 ≤ c → (exec a c).counter = c ∧ 0 ≤ (exec a c).counter)
    ∧ (∀ (a : Act) (c : Int), 0 ≤ c → ∀ v ∈ (exec (Act.guarded a) c).trace, 0 < v)
    ∧ (∀ c : Int, isInProgrammaticMove c = decide (0 < c)) := by
  refine ⟨?_, ?_, fun c => rfl⟩
  · intro a c hc
    have h := exec_counter a c hc
    exact ⟨h, by omega⟩
  · intro a c hc v hv
    have hv1 : v ∈ (exec a (c + 1)).trace := by
      simpa [exec, runProgrammaticMove] using hv
    have := exec_trace_ge a (c + 1) (by omega) v hv1
    omega

/-- Witness for C8: a guarded throwing step at counter 0 restores 0, and
the step itself observed the counter at the positive value 1. -/
theorem claim_C8_witness :
    ((exec (Act.guarded (Act.leaf true)) 0).counter = 0
      ∧ 0 ≤ (exec (Act.guarded (Act.leaf true)) 0).counter)
    ∧ (1 : Int) ∈ (exec (Act.guarded (Act.leaf true)) 0).trace
    ∧ 0 < (1 : Int) :=
  ⟨claim_C8.1 (Act.guarded (Act.leaf true)) 0 (by decide),
    by decide,
    claim_C8.2.1 (Act.leaf true) 0 (by decide) 1 (by decide)⟩

@[simp] theorem clearMoving_isMoving (w : World) : (clearMoving w).isMoving = false := rfl

@[simp] theorem clearMoving_e (w : World) : (clearMoving w).e = w.e := rfl

@[simp] theorem clearMoving_count (w : World) :
    (clearMoving w).programmaticMoveCount = w.programmaticMoveCount := rfl

@[simp] theorem clearMoving_desired (w : World) :
    (clearMoving w).desiredColumn = w.desiredColumn := rfl

@[simp] theorem clearMoving_log (w : World) : (clearMoving w).log = w.log := rfl

@[simp] theorem scil_isMoving (h : Host) (w : World) :
    (snapCursorInsideWrappedLine h w).isMoving = w.isMoving := by
  unfold snapCursorInsideWrappedLine
  split <;> simp

theorem update_isMoving_zero (h : Host) (snap : Bool) (w : World)
    (hc : w.programmaticMoveCount = 0) : (update h snap w).isMoving = false := by
  have hp : isInProgrammaticMove w.programmaticMoveCount = false := by
    simp [isInProgrammaticMove, hc]
  unfold update
  rw [hp, if_neg (by simp : ¬ (false = true))]
  split
  · simp
  · split
    · split <;> simp
    · simp

/-- C1: on a call with isMoving already set, moveCursorLineWrapped reads
but never modifies the desired column and keeps the sequence active; on
the first call of a sequence (isMoving clear) that passes the guards, it
sets the desired column with getColumnFromCharacter from the cursor's
offset within its wrapped span at that moment, and sets isMoving; and any
of the three subscribed events observed with the programmatic-move counter
at zero clears isMoving, so the next call re-anchors. -/
theorem claim_C1 :
    (∀ (h : Host) (d : Dir) (w : World), w.isMoving = true →
        (moveCursorLineWrapped h d w).desiredColumn = w.desiredColumn
        ∧ (moveCursorLineWrapped h d w).isMoving = true)
    ∧ (∀ (h : Host) (d : Dir) (w : World) (ws we : Nat),
        w.isMoving = false →
        isSingleSelection w.e = true →
        (getWrappedLineBounds h w).1 = (ws, we) →
        ¬ ((d = Dir.down ∧ we = (lineAt w.e w.e.sel.active.line).length
              ∧ w.e.doc.length - 1 ≤ w.e.sel.active.line)
           ∨ (d = Dir.up ∧ ws = 0 ∧ w.e.sel.active.line = 0)) →
        (moveCursorLineWrapped h d w).desiredColumn
          = getColumnFromCharacter (lineAt w.e w.e.sel.active.line) ws
              w.e.sel.active.character w.e.tabSize
        ∧ (moveCursorLineWrapped h d w).isMoving = true)
    ∧ (∀ (h : Host) (snap : Bool) (w : World), w.programmaticMoveCount = 0 →
        (update h snap w).isMoving = false)
    ∧ (∀ (h : Host) (k : EvKind) (w : World), w.programmaticMoveCount = 0 →
        (onDidChangeTextEditorSelection h k w).isMoving = false
        ∧ (onDidChangeTextEditorVisibleRanges h w).isMoving = false
        ∧ (onDidChangeActiveTextEditor h w).isMoving = false) := by
  refine ⟨?_, ?_, update_isMoving_zero, ?_⟩
  · intro h d w hmov
    by_cases hs : isSingleSelection w.e = true
    · rw [moveCursorLineWrapped, if_pos hs]
      have h1 : ((getWrappedLineBounds h w).2).isMoving = true :=
        (gwlb_isMoving h w).trans hmov
      split
      · exact ⟨gwlb_desired h w, h1⟩
      · have ht : mcwTracked h w = (getWrappedLineBounds h w).2 := by
          simp only [mcwTracked]
          rw [if_pos h1]
        refine ⟨?_, ?_⟩ <;> simp [ht, hmov]
    · rw [moveCursorLineWrapped, if_neg hs]
      exact ⟨rfl, hmov⟩
  · intro h d w ws we hmov hs hr hbnd
    rw [moveCursorLineWrapped, if_pos hs]
    have h1 : ((getWrappedLineBounds h w).2).isMoving = false :=
      (gwlb_isMoving h w).trans hmov
    have ht : mcwTracked h w
        = { (getWrappedLineBounds h w).2 with
            isMoving := true,
            desiredColumn :=
              getColumnFromCharacter
                (lineAt ((getWrappedLineBounds h w).2).e
                  (((getWrappedLineBounds h w).2).e.sel.active.line))
                (getWrappedLineBounds h w).1.1
                ((getWrappedLineBounds h w).2).e.sel.active.character
                ((getWrappedLineBounds h w).2).e.tabSize } := by
      simp only [mcwTracked]
      rw [if_neg (by simp [hmov])]
    split
    · next hcond =>
      exfalso
      apply hbnd
      simpa [hr] using hcond
    · refine ⟨?_, ?_⟩ <;> simp [ht, hr]
  · intro h k w hc
    exact ⟨update_isMoving_zero h _ w hc, update_isMoving_zero h false w hc,
      update_isMoving_zero h false w hc⟩

/-- Witness for C1: on the two-line document the first Down move anchors
desiredColumn at 2 (cursor character 1, counted inclusively) and starts
the sequence, and an event at counter 0 clears the flag. -/
theorem claim_C1_witness :
    (moveCursorLineWrapped hostNoWrap Dir.down worldTwoLines).desiredColumn = 2
    ∧ (moveCursorLineWrapped hostNoWrap Dir.down worldTwoLines).isMoving = true
    ∧ (update hostNoWrap true worldHanging).isMoving = false :=
  ⟨((claim_C1.2.1 hostNoWrap Dir.down worldTwoLines 0 3 rfl rfl (by decide)
      (by decide)).1).trans (by decide),
    (claim_C1.2.1 hostNoWrap Dir.down worldTwoLines 0 3 rfl rfl (by decide)
      (by decide)).2,
    claim_C1.2.2.1 hostNoWrap true worldHanging rfl⟩

/-- C4: at a document boundary in the direction of the move (Down with
the span end at the line's length on the last line; Up with the span
start 0 on line 0) moveCursorLineWrapped is a no-op: the final selection
equals the entry selection, no move sequence is established
(isMoving and desiredColumn unchanged), and the only commands issued are
the two span probes — no directional wrapped-line move appears in the
log. -/
theorem claim_C4 :
    ∀ (h : Host) (d : Dir) (w : World) (ws we : Nat),
      isSingleSelection w.e = true →
      (getWrappedLineBounds h w).1 = (ws, we) →
      ((d = Dir.down ∧ we = (lineAt w.e w.e.sel.active.line).length
          ∧ w.e.doc.length - 1 ≤ w.e.sel.active.line)
        ∨ (d = Dir.up ∧ ws = 0 ∧ w.e.sel.active.line = 0)) →
      (moveCursorLineWrapped h d w).e.sel = w.e.sel
      ∧ (moveCursorLineWrapped h d w).isMoving = w.isMoving
      ∧ (moveCursorLineWrapped h d w).desiredColumn = w.desiredColumn
      ∧ (moveCursorLineWrapped h d w).log
          = w.log ++ [MoveTo.wrappedLineStart, MoveTo.wrappedLineEnd] := by
  intro h d w ws we hs hr hbnd
  rw [moveCursorLineWrapped, if_pos hs]
  split
  · exact ⟨gwlb_sel h w, gwlb_isMoving h w, gwlb_desired h w, gwlb_log h w⟩
  · next hncond =>
    exfalso
    apply hncond
    simpa [hr] using hbnd

/-- Witness for C4: cursor at the end of the single line of a one-line
document; Down is a no-op. -/
theorem claim_C4_witness :
    (moveCursorLineWrapped hostNoWrap Dir.down worldLastLine).e.sel = worldLastLine.e.sel
    ∧ (moveCursorLineWrapped hostNoWrap Dir.down worldLastLine).isMoving
        = worldLastLine.isMoving
    ∧ (moveCursorLineWrapped hostNoWrap Dir.down worldLastLine).desiredColumn
        = worldLastLine.desiredColumn
    ∧ (moveCursorLineWrapped hostNoWrap Dir.down worldLastLine).log
        = worldLastLine.log ++ [MoveTo.wrappedLineStart, MoveTo.wrappedLineEnd] :=
  claim_C4 hostNoWrap Dir.down worldLastLine 0 3 rfl (by decide)
    (Or.inl ⟨rfl, by decide, by decide⟩)

@[simp] theorem hostMove_up (h : Host) : h.move MoveTo.up = h.up := rfl

@[simp] theorem hostMove_down (h : Host) : h.move MoveTo.down = h.down := rfl

@[simp] theorem hostMove_left (h : Host) : h.move MoveTo.left = h.left := rfl

@[simp] theorem hostMove_right (h : Host) : h.move MoveTo.right = h.right := rfl

@[simp] theorem hostMove_wls (h : Host) :
    h.move MoveTo.wrappedLineStart = h.wrappedLineStart := rfl

@[simp] theorem hostMove_wle (h : Host) :
    h.move MoveTo.wrappedLineEnd = h.wrappedLineEnd := rfl

@[simp] theorem ddcm_lineAt (h : Host) (t : MoveTo) (w : World) (n : Nat) :
    lineAt (doDefaultCursorMove h t w).e n = lineAt w.e n := by
  simp [lineAt]

theorem update_sel_snapfalse (h : Host) (w : World) :
    (update h false w).e.sel = w.e.sel := by
  unfold update
  split
  · rfl
  · split
    · simp
    · rw [if_neg (by simp)]
      simp

theorem update_sel_insert (h : Host) (snap : Bool) (w : World)
    (hins : isInInsertMode w.e = true) : (update h snap w).e.sel = w.e.sel := by
  unfold update
  split
  · rfl
  · split
    · simp
    · rw [if_neg (by simp [hins])]
      simp

theorem update_sel_nothang (h : Host) (snap : Bool) (w : World)
    (hne : w.e.sel ≠ ⟨h.wrappedLineEnd w.e, h.wrappedLineEnd w.e⟩) :
    (update h snap w).e.sel = w.e.sel := by
  unfold update
  split
  · rfl
  · split
    · simp
    · split
      · split
        · simp
        · unfold snapCursorInsideWrappedLine
          rw [if_neg (by simpa using hne)]
          simp
      · simp

theorem update_snap_moves (h : Host) (w : World)
    (hc : w.programmaticMoveCount = 0)
    (hchar : w.e.sel.active.character ≠ 0)
    (hins : isInInsertMode w.e = false)
    (hlen : w.e.sel.active.character < (lineAt w.e w.e.sel.active.line).length)
    (hang : w.e.sel = ⟨h.wrappedLineEnd w.e, h.wrappedLineEnd w.e⟩) :
    (update h true w).e.sel
      = ⟨⟨w.e.sel.active.line,
          getLeftColumnCharacter (lineAt w.e w.e.sel.active.line)
            w.e.sel.active.character⟩,
         ⟨w.e.sel.active.line,
          getLeftColumnCharacter (lineAt w.e w.e.sel.active.line)
            w.e.sel.active.character⟩⟩ := by
  have hp : isInProgrammaticMove w.programmaticMoveCount = false := by
    simp [isInProgrammaticMove, hc]
  have hp2 : h.wrappedLineEnd w.e = w.e.sel.active := (congrArg Sel.active hang).symm
  unfold update
  rw [hp, if_neg (by simp : ¬ (false = true))]
  rw [if_neg (by simpa using hchar)]
  rw [if_pos (by simp [hins])]
  rw [if_neg (by simpa using Nat.not_le.mpr hlen)]
  unfold snapCursorInsideWrappedLine
  rw [if_pos (by simpa using hang)]
  simp [snapTargetPos, hp2]

/-- C9 as stated is false: an externally caused keyboard selection-change
event that satisfies every trigger condition of the claim (counter zero,
cursor character 3 ≠ 0, Block cursor so not insert mode, cursor sitting
exactly at the wrapped-line end of its span on the six-character line
"abcdef" wrapped after three characters) leaves the cursor at offset 3 —
the listener snaps only on Mouse-kind events, so the cursor is not moved
one visual position left to offset 2. -/
theorem claim_C9_counterexample :
    worldHanging.programmaticMoveCount = 0
    ∧ worldHanging.e.sel.active.character ≠ 0
    ∧ isInInsertMode worldHanging.e = false
    ∧ worldHanging.e.sel
        = ⟨hostWrap3.wrappedLineEnd worldHanging.e, hostWrap3.wrappedLineEnd worldHanging.e⟩
    ∧ worldHanging.e.sel.active.character < (lineAt worldHanging.e 0).length
    ∧ getLeftColumnCharacter (lineAt worldHanging.e 0) 3 = 2
    ∧ (onDidChangeTextEditorSelection hostWrap3 EvKind.keyboard worldHanging).e.sel.active.character
        = 3 := by decide

/-- C9 amended: the snap is performed only for Mouse-kind selection-change
events carrying a single empty selection, and only when the cursor offset
is nonzero, strictly less than the logical line's length, the editor is
not in insert mode, the counter is zero, and the cursor sits exactly at
the wrapped-line end of its span; it then lands on
getLeftColumnCharacter of the cursor offset (the nearest non-combining
offset to the left, or offset 0). In every other observed selection-change
event — non-Mouse kind, insert mode, or cursor not at the wrapped-line
end — the listener leaves the selection unchanged. -/
theorem claim_C9_amended :
    (∀ (h : Host) (w : World),
        w.programmaticMoveCount = 0 →
        w.e.sel.active.character ≠ 0 →
        isInInsertMode w.e = false →
        isSingleSelection w.e = true →
        w.e.sel.active.character < (lineAt w.e w.e.sel.active.line).length →
        w.e.sel = ⟨h.wrappedLineEnd w.e, h.wrappedLineEnd w.e⟩ →
        (onDidChangeTextEditorSelection h EvKind.mouse w).e.sel
          = ⟨⟨w.e.sel.active.line,
              getLeftColumnCharacter (lineAt w.e w.e.sel.active.line)
                w.e.sel.active.character⟩,
             ⟨w.e.sel.active.line,
              getLeftColumnCharacter (lineAt w.e w.e.sel.active.line)
                w.e.sel.active.character⟩⟩)
    ∧ (∀ (h : Host) (k : EvKind) (w : World), k ≠ EvKind.mouse →
        (onDidChangeTextEditorSelection h k w).e.sel = w.e.sel)
    ∧ (∀ (h : Host) (k : EvKind) (w : World),
        w.e.sel ≠ ⟨h.wrappedLineEnd w.e, h.wrappedLineEnd w.e⟩ →
        (onDidChangeTextEditorSelection h k w).e.sel = w.e.sel)
    ∧ (∀ (h : Host) (k : EvKind) (w : World), isInInsertMode w.e = true →
        (onDidChangeTextEditorSelection h k w).e.sel = w.e.sel) := by
  refine ⟨?_, ?_, ?_, ?_⟩
  · intro h w hc hchar hins hss hlen hang
    unfold onDidChangeTextEditorSelection
    rw [show (EvKind.mouse == EvKind.mouse && isSingleSelection w.e) = true by
      simp [hss]]
    exact update_snap_moves h w hc hchar hins hlen hang
  · intro h k w hk
    unfold onDidChangeTextEditorSelection
    rw [show (k == EvKind.mouse && isSingleSelection w.e) = false by
      cases k <;> simp_all]
    exact update_sel_snapfalse h w
  · intro h k w hne
    unfold onDidChangeTextEditorSelection
    exact update_sel_nothang h _ w hne
  · intro h k w hins
    unfold onDidChangeTextEditorSelection
    exact update_sel_insert h _ w hins

/-- Witness for the amended C9: the mouse event on the hanging cursor of
worldHanging snaps it from offset 3 to offset 2. -/
theorem claim_C9_amended_witness :
    (onDidChangeTextEditorSelection hostWrap3 EvKind.mouse worldHanging).e.sel
      = ⟨⟨0, 2⟩, ⟨0, 2⟩⟩ :=
  (claim_C9_amended.1 hostWrap3 worldHanging rfl (by decide) (by decide) (by decide)
    (by decide) (by decide)).trans (by decide)

end VimWrapped
